import Mathlib

/-!
# ShowGo — Settings & Media Consistency Engine: verification development

Shallow embedding of the settings store, media catalog reconciliation and
thumbnail pipeline of the ShowGo application (`showgo/utils.py`,
`showgo/config_bp.py`, `showgo/config.py`, `showgo/models.py`), together
with theorems settling the specification's claims about them.

Conventions of the embedding:
* Python floats are modelled as rationals (`ℚ`); the literal `0.1` is `1/10`.
* The database session / filesystem are modelled as explicit state
  (association lists); primitive operations (row write, file delete) are
  modelled as succeeding — exceptional OS-level failures of the primitives
  themselves are outside the model.
* Fallible lookups are driven by explicit outcome oracles
  (`found / absent / error`), mirroring which `except` arm of the Python
  code runs.
* Strings are compared and transformed through their character lists, with
  `Char.toLower` standing for Python's `str.lower` (the inputs involved are
  ASCII).
-/

namespace ShowGo

/-- JSON-serializable setting value (`Setting.value` column). Values the
program computes at import time (password hash, import-time timestamp) are
representable via `num`/`str`/`other`. -/
inductive SGValue : Type
  | num (q : ℚ)
  | str (s : String)
  | boolean (b : Bool)
  | other
  deriving DecidableEq, Repr

/-! ## Thumbnail generator (`generate_thumbnail`, `_get_video_duration`)

`generate_thumbnail(source_path, dest_path, size, media_type)` first runs
`os.makedirs(os.path.dirname(dest_path), exist_ok=True)`, then dispatches on
`media_type`.  For `'video'` it probes the duration via `_get_video_duration`
(`None` on any ffprobe failure), returns `(False, None)` when the duration is
`None` or `≤ 0`, and otherwise invokes ffmpeg with seek offset
`max(0.1, duration * 0.1)`.  For `'image'` it uses Pillow; any other
media type returns `(False, None)`. -/

/-- Observable trace of one `generate_thumbnail` call. `duration` is the
outcome of `_get_video_duration` (`none` = ffprobe failure), and
`ffmpegOk` / `imageOk` are the outcomes of the external ffmpeg run and of the
Pillow decode-resize-save, respectively. -/
structure ThumbTrace : Type where
  /-- the destination directory tree was created (makedirs, exist_ok). -/
  mkdirDest : Bool
  /-- ffmpeg frame extraction was invoked. -/
  ffmpegInvoked : Bool
  /-- seek offset (seconds) passed to ffmpeg, when invoked. -/
  seek : Option ℚ
  /-- the `(ok, actual_path)` return value. -/
  result : Bool × Option String
  deriving DecidableEq, Repr

/-- Shallow embedding of `generate_thumbnail` (showgo/utils.py lines 82-154). -/
def generate_thumbnail (dest_path : String) (media_type : String)
    (duration : Option ℚ) (ffmpegOk : Bool) (pilAvailable : Bool)
    (imageOk : Bool) : ThumbTrace :=
  -- os.makedirs(dest_dir, exist_ok=True) happens before the dispatch
  if media_type = "video" then
    match duration with
    | none => ⟨true, false, none, (false, none)⟩
    | some d =>
      if d ≤ 0 then ⟨true, false, none, (false, none)⟩
      else
        let seek_time := max (1/10 : ℚ) (d * (1/10))
        if ffmpegOk then ⟨true, true, some seek_time, (true, some dest_path)⟩
        else ⟨true, true, some seek_time, (false, none)⟩
  else if media_type = "image" then
    if ¬ pilAvailable then ⟨true, false, none, (false, none)⟩
    else if imageOk then ⟨true, false, none, (true, some dest_path)⟩
    else ⟨true, false, none, (false, none)⟩
  else
    ⟨true, false, none, (false, none)⟩

/-! ## Settings store (`initialize_database`, `get_setting`)

The settings table is `(key, value, last_updated)` rows with `key` as primary
key; here the value part is an association list (`SettingsRows`).
`initialize_database` (showgo/utils.py lines 159-203) runs `db.create_all()`,
then `db.session.merge(Setting(key=key, value=default_value))` for every
compiled-in default — SQLAlchemy `merge` *upserts*: it adds the row when the
primary key is absent and otherwise copies the given value over the existing
row — commits, and finally deletes the obsolete `widgets_weather_api_key`
row when present. -/

/-- Settings rows as an association list `key ↦ value`. -/
abbrev SettingsRows := List (String × SGValue)

/-- `Setting.query.filter_by(key=key).first()`, projected to the value. -/
def lookupSetting (rows : SettingsRows) (k : String) : Option SGValue :=
  match rows.find? (fun r => r.1 == k) with
  | some r => some r.2
  | none => none

/-- `db.session.merge(Setting(key=k, value=v))`: update the row with primary
key `k` when present, otherwise append a fresh row. -/
def mergeSetting (rows : SettingsRows) (k : String) (v : SGValue) : SettingsRows :=
  if rows.any (fun r => r.1 == k) then
    rows.map (fun r => if r.1 == k then (k, v) else r)
  else rows ++ [(k, v)]

/-- The explicitly deprecated key removed by `initialize_database`. -/
def deprecatedKey : String := "widgets_weather_api_key"

/-- Merge every default into the store, in order (the loop over
`defaults.items()`). -/
def mergeAll (rows : SettingsRows) (defaults : SettingsRows) : SettingsRows :=
  defaults.foldl (fun rs kv => mergeSetting rs kv.1 kv.2) rows

/-- Database state: whether the schema exists, plus the settings rows. -/
structure DBState : Type where
  schemaReady : Bool
  rows : SettingsRows
  deriving DecidableEq, Repr

/-- Shallow embedding of `initialize_database` (showgo/utils.py lines
159-203) on its success path: `db.create_all()`; merge every compiled-in
default; commit; delete the deprecated `widgets_weather_api_key` row. -/
def initialize_database (defaults : SettingsRows) (st : DBState) : DBState :=
  let rows1 := mergeAll st.rows defaults
  ⟨true, rows1.filter (fun kv => kv.1 != deprecatedKey)⟩

/-- `DEFAULT_SETTINGS_DB` from showgo/config.py, parametric in the two
import-time-computed entries (`auth_password_hash` is a fresh salted hash of
"showgo"; `media_last_changed` is the import-time timestamp). The list value
of `burn_in_prevention_elements` is modelled as `SGValue.other`. -/
def DEFAULT_SETTINGS_DB (pwHash : SGValue) (importTs : ℚ) : SettingsRows :=
  [("slideshow_duration_seconds", .num 10),
   ("slideshow_transition_effect", .str "kenburns"),
   ("slideshow_image_order", .str "random"),
   ("slideshow_image_scaling", .str "cover"),
   ("slideshow_video_scaling", .str "contain"),
   ("slideshow_video_autoplay", .boolean true),
   ("slideshow_video_loop", .boolean false),
   ("slideshow_video_muted", .boolean true),
   ("slideshow_video_show_controls", .boolean false),
   ("overlay_enabled", .boolean false),
   ("overlay_text", .str "ShowGo Display"),
   ("overlay_position", .str "bottom-right"),
   ("overlay_font_size", .str "24px"),
   ("overlay_font_color", .str "#FFFFFF"),
   ("overlay_logo_enabled", .boolean false),
   ("overlay_display_mode", .str "text_only"),
   ("overlay_background_color", .str "rgba(0, 0, 0, 0.5)"),
   ("overlay_padding", .str "10px"),
   ("widgets_time_enabled", .boolean true),
   ("widgets_weather_enabled", .boolean true),
   ("widgets_weather_location", .str "Oshkosh"),
   ("widgets_rss_enabled", .boolean false),
   ("widgets_rss_feed_url", .str "https://feeds.bbci.co.uk/news/rss.xml?edition=us"),
   ("widgets_rss_scroll_speed", .str "medium"),
   ("auth_username", .str "admin"),
   ("auth_password_hash", pwHash),
   ("auth_password_changed", .boolean false),
   ("burn_in_prevention_enabled", .boolean false),
   ("burn_in_prevention_elements", .other),
   ("burn_in_prevention_interval_seconds", .num 15),
   ("burn_in_prevention_strength_pixels", .num 3),
   ("media_last_changed", .num importTs)]

/-! ### `get_setting` (showgo/utils.py lines 221-249)

The outcome of the first `Setting.query...first()` call, of the
`initialize_database()` recovery, and of the retried query are modelled as
explicit oracles; the function's observable behaviour is its returned value
together with how many bootstraps and row lookups it performed. -/

/-- Outcome of the first row lookup: a row with value `v`, no row, or one of
the exception classes (`ProgrammingError`, `OperationalError`, anything
else). -/
inductive LookupOutcome : Type
  | found (v : SGValue)
  | absent
  | progError
  | opError
  | otherError
  deriving DecidableEq, Repr

/-- Outcome of the retried lookup after a successful recovery. -/
inductive RetryOutcome : Type
  | rfound (v : SGValue)
  | rabsent
  | rerror
  deriving DecidableEq, Repr

/-- Observable trace of one `get_setting` call. -/
structure GetTrace : Type where
  value : Option SGValue
  bootstraps : Nat
  lookups : Nat
  deriving DecidableEq, Repr

/-- The final fallback of `get_setting`:
`default if default is not None else default_settings.get(key)`. -/
def fallbackValue (dflt compiled : Option SGValue) : Option SGValue :=
  match dflt with
  | some d => some d
  | none => compiled

/-- Shallow embedding of `get_setting` (showgo/utils.py lines 221-249).
`dflt` is the caller-supplied `default` argument (`none` = Python `None`),
`compiled` is `DEFAULT_SETTINGS_DB.get(key)`. -/
def get_setting (first : LookupOutcome) (bootstrapOk : Bool)
    (retry : RetryOutcome) (dflt compiled : Option SGValue) : GetTrace :=
  match first with
  | .found v => ⟨some v, 0, 1⟩
  | .absent => ⟨fallbackValue dflt compiled, 0, 1⟩
  | .progError =>
    if bootstrapOk then
      match retry with
      | .rfound v => ⟨some v, 1, 2⟩
      | .rabsent => ⟨dflt, 1, 2⟩    -- `setting.value if setting else default`
      | .rerror => ⟨fallbackValue dflt compiled, 1, 2⟩
    else ⟨fallbackValue dflt compiled, 1, 1⟩
  | .opError => ⟨fallbackValue dflt compiled, 0, 1⟩
  | .otherError => ⟨fallbackValue dflt compiled, 0, 1⟩

/-! ## Web-playability validator and the upload path

`upload_media` (showgo/config_bp.py lines 343-516) saves each uploaded video
under `uuid_hex.ext`, then calls `is_web_friendly_video` on it; on a `False`
result it flashes an error, removes the just-written file and `continue`s
without ever reaching the `db.session.add`/`commit` lines.

`is_web_friendly_video` itself is imported from `showgo.utils` but is not
present in the repository sources; it is modelled from the spec below. -/

/-- `ALLOWED_VIDEO_CODECS` from showgo/config.py. -/
def ALLOWED_VIDEO_CODECS : List String := ["h264", "vp9", "av1"]

/-- `ALLOWED_AUDIO_CODECS` from showgo/config.py. -/
def ALLOWED_AUDIO_CODECS : List String := ["aac", "opus", "mp3", "vorbis"]

/-- Modelled from the spec: `is_web_friendly_video` / `validate_web_playable`
is imported from `showgo.utils` but missing from the sources.  Per the spec it
"inspects the first video stream's and first audio stream's codec identifiers
against two configured allow-lists; an undetectable or disallowed codec on
either stream ⇒ reject".  `probe` is the probing outcome: `none` when the
file cannot be inspected, otherwise the first video stream's and first audio
stream's codec identifiers (`none` = undetectable). -/
def is_web_friendly_video (probe : Option (Option String × Option String))
    (videoAllow audioAllow : List String) : Bool :=
  match probe with
  | none => false
  | some (vcodec, acodec) =>
    (match vcodec with
     | none => false
     | some v => videoAllow.contains v) &&
    (match acodec with
     | none => false
     | some a => audioAllow.contains a)

/-- A `media_files` row, restricted to the fields the upload path writes. -/
structure MediaRow : Type where
  uuid_filename : String
  extension : String
  media_type : String
  deriving DecidableEq, Repr

/-- Catalog-side state touched by one upload: the two managed directories
(as lists of filenames) and the `media_files` rows. -/
structure CatalogState : Type where
  uploadFiles : List String
  thumbFiles : List String
  rows : List MediaRow
  deriving DecidableEq, Repr

/-- Shallow embedding of one iteration of the `upload_media` loop for a video
file (showgo/config_bp.py lines 375-491): save the original under
`uuid_hex.ext`; run the codec validation and on failure remove the file and
`continue` (no row); otherwise attempt the thumbnail (soft failure) and
insert + commit the `MediaFile` row.  The returned Bool is whether the file
was accepted. -/
def upload_video_step (st : CatalogState) (uuid_hex ext thumbExt : String)
    (webFriendly thumbOk : Bool) : CatalogState × Bool :=
  let disk := uuid_hex ++ "." ++ ext
  let st1 : CatalogState := { st with uploadFiles := st.uploadFiles ++ [disk] }
  if ¬ webFriendly then
    ({ st1 with uploadFiles := st1.uploadFiles.filter (fun f => f != disk) }, false)
  else
    let st2 : CatalogState :=
      if thumbOk then { st1 with thumbFiles := st1.thumbFiles ++ [uuid_hex ++ thumbExt] }
      else st1
    ({ st2 with rows := st2.rows ++ [⟨uuid_hex, ext, "video"⟩] }, true)

/-! ## Filesystem reconciliation (`find_unexpected_items`)

`find_unexpected_items(db_uuids)` (showgo/utils.py lines 423-483) lists both
managed directories.  In the uploads folder a file is *orphaned* when its
`os.path.splitext` stem is a 32-character lowercase-hex token, its extension
(lowercased, leading dots stripped) is an allowed media extension, and the
token is not a known content-id; it is *unexpected* when the stem is **not**
such a token and the name is not `.DS_Store`/`thumbs.db`; otherwise it is
skipped.  The thumbnails folder is scanned the same way with the expected
extension being the configured thumbnail extension (compared with its dot),
with `any`-based deduplication guards before each append. -/

/-- Index of the last `'.'` in a character list, if any. -/
def lastDotIdx (cs : List Char) : Option Nat :=
  match cs.reverse.findIdx? (fun c => c == '.') with
  | none => none
  | some j => some (cs.length - 1 - j)

/-- `os.path.splitext` on a bare filename (no directory separators): split at
the last dot, except that a name whose characters before that dot are all
dots has no extension. -/
def splitext (s : String) : String × String :=
  match lastDotIdx s.data with
  | none => (s, "")
  | some i =>
    if (s.data.take i).all (fun c => c == '.') then (s, "")
    else (⟨s.data.take i⟩, ⟨s.data.drop i⟩)

/-- Python `str.lower` (the relevant inputs are ASCII). -/
def lowerStr (s : String) : String := ⟨s.data.map Char.toLower⟩

/-- Python `str.lstrip('.')`. -/
def lstripDots (s : String) : String := ⟨s.data.dropWhile (fun c => c == '.')⟩

/-- `len(uuid_part) == 32 and all(c in '0123456789abcdef' for c in uuid_part)`. -/
def isUuidFormat (s : String) : Bool :=
  (s.data.length == 32) &&
    s.data.all (fun c => ("0123456789abcdef".data).contains c)

/-- `item_name.lower() in ['.ds_store', 'thumbs.db']`. -/
def isOSArtifact (name : String) : Bool :=
  lowerStr name == ".ds_store" || lowerStr name == "thumbs.db"

/-- One `os.listdir` entry of a managed directory. -/
structure DirEntry : Type where
  name : String
  isDir : Bool
  deriving DecidableEq, Repr

/-- The `{'folder': ..., 'name': ...}` dictionaries the scan produces. -/
structure ItemInfo : Type where
  folder : String
  name : String
  deriving DecidableEq, Repr

/-- The three result lists of `find_unexpected_items`. -/
structure Buckets : Type where
  orphaned : List ItemInfo
  unexpectedFiles : List ItemInfo
  unexpectedDirs : List ItemInfo
  deriving DecidableEq, Repr

/-- Uploads-folder orphan test: hex-token stem, allowed media extension,
token unknown. -/
def uploadOrphanCond (dbUuids allowedExts : List String) (e : DirEntry) : Bool :=
  isUuidFormat (splitext e.name).1 &&
    allowedExts.contains (lstripDots (lowerStr (splitext e.name).2)) &&
    !(dbUuids.contains (splitext e.name).1)

/-- Unexpected-file test (both folders): stem not a hex token, name not an OS
artifact. -/
def fileUnexpectedCond (e : DirEntry) : Bool :=
  !(isUuidFormat (splitext e.name).1) && !(isOSArtifact e.name)

/-- Thumbnails-folder orphan test: hex-token stem, extension equal (lowercased)
to the configured thumbnail extension, token unknown. -/
def thumbOrphanCond (dbUuids : List String) (thumbExt : String) (e : DirEntry) :
    Bool :=
  isUuidFormat (splitext e.name).1 &&
    (lowerStr (splitext e.name).2 == thumbExt) &&
    !(dbUuids.contains (splitext e.name).1)

/-- One iteration of the uploads-folder loop of `find_unexpected_items`. -/
def scanUploadsStep (dbUuids allowedExts : List String) (b : Buckets)
    (e : DirEntry) : Buckets :=
  let info : ItemInfo := ⟨"uploads", e.name⟩
  if e.isDir then { b with unexpectedDirs := b.unexpectedDirs ++ [info] }
  else if uploadOrphanCond dbUuids allowedExts e then
    { b with orphaned := b.orphaned ++ [info] }
  else if fileUnexpectedCond e then
    { b with unexpectedFiles := b.unexpectedFiles ++ [info] }
  else b

/-- One iteration of the thumbnails-folder loop of `find_unexpected_items`,
including its `any`-based deduplication guards. -/
def scanThumbsStep (dbUuids : List String) (thumbExt : String) (b : Buckets)
    (e : DirEntry) : Buckets :=
  let info : ItemInfo := ⟨"thumbnails", e.name⟩
  if e.isDir then
    if b.unexpectedDirs.any
        (fun d => d.name == e.name && d.folder == "thumbnails") then b
    else { b with unexpectedDirs := b.unexpectedDirs ++ [info] }
  else if thumbOrphanCond dbUuids thumbExt e then
    if b.orphaned.any (fun f => f.name == e.name && f.folder == "thumbnails")
    then b
    else { b with orphaned := b.orphaned ++ [info] }
  else if fileUnexpectedCond e then
    if b.unexpectedFiles.any
        (fun f => f.name == e.name && f.folder == "thumbnails") then b
    else { b with unexpectedFiles := b.unexpectedFiles ++ [info] }
  else b

/-- Shallow embedding of `find_unexpected_items` (showgo/utils.py lines
423-483): scan the uploads directory, then the thumbnails directory. -/
def find_unexpected_items (uploadEntries thumbEntries : List DirEntry)
    (dbUuids allowedExts : List String) (thumbExt : String) : Buckets :=
  thumbEntries.foldl (scanThumbsStep dbUuids thumbExt)
    (uploadEntries.foldl (scanUploadsStep dbUuids allowedExts) ⟨[], [], []⟩)

/-- `ALLOWED_EXTENSIONS` from showgo/config.py: the union of the image and
video extension sets. -/
def ALLOWED_EXTENSIONS : List String :=
  ["png", "jpg", "jpeg", "gif", "webp", "mp4", "webm", "ogg"]

/-! ## Cleanup of unexpected items (`cleanup_unexpected_items`)

`cleanup_unexpected_items(items_to_delete)` (showgo/utils.py lines 485-526)
resolves each item against its managed root via
`os.path.abspath(os.path.join(base, name))`, guards with
`item_path.startswith(os.path.abspath(base_path))`, then `os.remove`s files
and `shutil.rmtree`s directories, returning
`(deleted_files, deleted_dirs, error_count)`.  POSIX paths are modelled as
strings; `abspath`/`join` are implemented below on path components. -/

/-- Split a character list at `'/'`. -/
def splitSlashAux : List Char → List Char → List (List Char)
  | [], acc => [acc.reverse]
  | c :: cs, acc =>
    if c = '/' then acc.reverse :: splitSlashAux cs []
    else splitSlashAux cs (c :: acc)

/-- Path components of a POSIX path (empty components dropped). -/
def splitPath (s : String) : List String :=
  ((splitSlashAux s.data []).map (fun cs => (⟨cs⟩ : String))).filter
    (fun t => t != "")

/-- Resolve `"."` and `".."` components against an absolute root
(`os.path.normpath` on an absolute path; `".."` at the root is dropped). -/
def normComps (l : List String) : List String :=
  (l.foldl (fun acc c =>
    if c = "." then acc
    else if c = ".." then acc.tail
    else c :: acc) []).reverse

/-- Reassemble path components with `'/'`. -/
def joinComps : List String → String
  | [] => ""
  | [c] => c
  | c :: rest => c ++ "/" ++ joinComps rest

/-- `os.path.abspath` on an absolute input: normalization. -/
def abspath (s : String) : String := "/" ++ joinComps (normComps (splitPath s))

/-- `os.path.join(base, name)`: an absolute `name` discards `base`. -/
def joinPath (base name : String) : String :=
  if name.data.head? = some '/' then name else base ++ "/" ++ name

/-- Filesystem snapshot: absolute normalized paths with an is-directory flag. -/
abbrev FS := List (String × Bool)

/-- `os.path.isfile`. -/
def isFilePath (fs : FS) (p : String) : Bool := fs.contains (p, false)

/-- `os.path.isdir`. -/
def isDirPath (fs : FS) (p : String) : Bool := fs.contains (p, true)

/-- `os.remove p`. -/
def removeFile (fs : FS) (p : String) : FS :=
  fs.filter (fun q => !(q.1 == p && q.2 == false))

/-- `shutil.rmtree p`: remove the directory and everything below it. -/
def rmtree (fs : FS) (p : String) : FS :=
  fs.filter (fun q => !(q.1 == p || (p ++ "/").data.isPrefixOf q.1.data))

/-- Running state of `cleanup_unexpected_items`. -/
structure CleanupResult : Type where
  fs : FS
  deleted_files : Nat
  deleted_dirs : Nat
  errors : Nat
  deriving DecidableEq, Repr

/-- One iteration of the `cleanup_unexpected_items` loop, including the
`startswith`-based containment guard exactly as written. -/
def cleanupStep (uploadFolder thumbFolder : String) (st : CleanupResult)
    (item : ItemInfo) : CleanupResult :=
  let base := if item.folder == "uploads" then uploadFolder else thumbFolder
  let item_path := abspath (joinPath base item.name)
  if !((abspath base).data.isPrefixOf item_path.data) then
    { st with errors := st.errors + 1 }
  else if isFilePath st.fs item_path then
    { st with fs := removeFile st.fs item_path,
              deleted_files := st.deleted_files + 1 }
  else if isDirPath st.fs item_path then
    { st with fs := rmtree st.fs item_path,
              deleted_dirs := st.deleted_dirs + 1 }
  else st

/-- Shallow embedding of `cleanup_unexpected_items` (showgo/utils.py lines
485-526). -/
def cleanup_unexpected_items (uploadFolder thumbFolder : String) (fs : FS)
    (items : List ItemInfo) : CleanupResult :=
  items.foldl (cleanupStep uploadFolder thumbFolder) ⟨fs, 0, 0, 0⟩

/-! ## Pruning of missing media records (`remove_missing_media_db_entries`)

`remove_missing_media_db_entries(missing_media_ids)` (showgo/utils.py lines
528-581) iterates the ids: `int()` failure counts an error; a found record is
deleted *at session level* and counted; a per-record exception counts an
error and calls `db.session.rollback()` — which discards **all** pending
session deletes, not just the failing one; at the end any pending deletes are
committed (in both the error-free and the partial-success branch). -/

/-- Outcome of processing one id string. -/
inductive IdOutcome : Type
  | invalid
  | dbError
  | notFound
  | foundRec (i : Nat)
  deriving DecidableEq, Repr

/-- Loop state of `remove_missing_media_db_entries`: session-pending deletes
and the two counters. -/
structure PruneState : Type where
  pending : List Nat
  deleted : Nat
  errors : Nat
  mediaChanged : Bool
  deriving DecidableEq, Repr

/-- One iteration of the `remove_missing_media_db_entries` loop. -/
def pruneStep (st : PruneState) (o : IdOutcome) : PruneState :=
  match o with
  | .invalid => { st with errors := st.errors + 1 }
  | .dbError => { st with errors := st.errors + 1, pending := [] }
  | .notFound => st
  | .foundRec i =>
    { st with pending := st.pending ++ [i], deleted := st.deleted + 1,
              mediaChanged := true }

/-- Shallow embedding of `remove_missing_media_db_entries` (showgo/utils.py
lines 528-581) with a successful final commit: returns the post-commit row
ids and the `(deleted_count, error_count)` pair. -/
def remove_missing_media_db_entries (store : List Nat)
    (outcomes : List IdOutcome) : List Nat × Nat × Nat :=
  let st := outcomes.foldl pruneStep ⟨[], 0, 0, false⟩
  if st.mediaChanged then
    (store.filter (fun i => !(st.pending.contains i)), st.deleted, st.errors)
  else (store, st.deleted, st.errors)

/-! ## Change timestamp tracker (`get_config_timestamp_from_db`)

`get_config_timestamp_from_db` (showgo/utils.py lines 335-373) returns the
max of the most recent `last_updated` across settings rows (0.0 when none)
and the numeric value of the `media_last_changed` setting (0.0 when absent or
non-numeric); on `OperationalError` or failed recovery it returns `None`.

Mutations relevant to the claim: `save_setting(key, value)` upserts a row and
refreshes its `last_updated` to the current wall clock; every catalog
mutation (register / delete / prune) calls `_touch_media_timestamp`
(showgo/config_bp.py lines 43-49), i.e. `save_setting('media_last_changed',
now)`.  The application writes `media_last_changed` only through that helper. -/

/-- One settings row with its `last_updated` timestamp (epoch seconds). -/
structure SettingRow : Type where
  key : String
  value : SGValue
  last_updated : ℚ
  deriving DecidableEq, Repr

/-- Settings rows plus the current wall clock. -/
structure TSStore : Type where
  rows : List SettingRow
  clock : ℚ
  deriving DecidableEq, Repr

/-- `save_setting(k, v)` at time `t`: update the row (refreshing
`last_updated`) or append a fresh one. -/
def save_setting_row (rows : List SettingRow) (k : String) (v : SGValue)
    (t : ℚ) : List SettingRow :=
  if rows.any (fun r => r.key == k) then
    rows.map (fun r => if r.key == k then ⟨k, v, t⟩ else r)
  else rows ++ [⟨k, v, t⟩]

/-- `Setting.query.order_by(Setting.last_updated.desc()).first()`, projected
to its timestamp (`0.0` when the table is empty). -/
def maxLastUpdated (rows : List SettingRow) : ℚ :=
  rows.foldl (fun m r => max m r.last_updated) 0

/-- The `isinstance(..., (int, float))` coercion: numeric value, else `0.0`. -/
def valueAsNum : SGValue → ℚ
  | .num q => q
  | _ => 0

/-- `get_setting('media_last_changed', 0.0)` coerced as the code does:
numeric value, else `0.0`. -/
def mediaChangedTs (rows : List SettingRow) : ℚ :=
  match rows.find? (fun r => r.key == "media_last_changed") with
  | some r => valueAsNum r.value
  | none => 0

/-- Shallow embedding of `get_config_timestamp_from_db` (showgo/utils.py
lines 335-373): `readable = false` models the unreadable-store paths
(`OperationalError`, failed recovery), which return `None`. -/
def get_config_timestamp_from_db (readable : Bool) (rows : List SettingRow) :
    Option ℚ :=
  if readable then some (max (maxLastUpdated rows) (mediaChangedTs rows))
  else none

/-- Well-formedness of a store: the clock is non-negative (epoch seconds) and
every stored `last_updated`, and any numeric `media_last_changed` value, is
at most the current clock (they were all written at past clock readings). -/
def TSWF (s : TSStore) : Prop :=
  0 ≤ s.clock ∧ ∀ r ∈ s.rows, r.last_updated ≤ s.clock ∧
    (∀ q, r.key = "media_last_changed" → r.value = .num q → q ≤ s.clock)

/-- The mutations of the claimed operation class, at a wall clock that never
runs backwards: a settings write to a non-reserved key, and the
`_touch_media_timestamp` performed by every catalog mutation
(register / delete / prune), which writes the current time under
`media_last_changed`. -/
inductive TSStep : TSStore → TSStore → Prop
  | set (s : TSStore) (k : String) (v : SGValue) (t : ℚ) :
      s.clock ≤ t → k ≠ "media_last_changed" →
      TSStep s ⟨save_setting_row s.rows k v t, t⟩
  | touch (s : TSStore) (t : ℚ) :
      s.clock ≤ t →
      TSStep s ⟨save_setting_row s.rows "media_last_changed" (.num t) t, t⟩

/-! ### Lookup / merge lemmas -/

theorem lookupSetting_cons (r : String × SGValue) (rest : SettingsRows) (k : String) :
    lookupSetting (r :: rest) k =
      if r.1 == k then some r.2 else lookupSetting rest k := by
  cases hr : (r.1 == k) <;> simp [lookupSetting, List.find?_cons, hr]

theorem lookupSetting_append (l₁ l₂ : SettingsRows) (k : String) :
    lookupSetting (l₁ ++ l₂) k =
      match lookupSetting l₁ k with
      | some v => some v
      | none => lookupSetting l₂ k := by
  induction l₁ with
  | nil => rfl
  | cons r rest ih =>
    rw [List.cons_append, lookupSetting_cons, lookupSetting_cons]
    by_cases hr : (r.1 == k) = true
    · rw [if_pos hr, if_pos hr]
    · rw [if_neg hr, if_neg hr, ih]

theorem lookupSetting_eq_none (rows : SettingsRows) (k : String)
    (h : rows.any (fun r => r.1 == k) = false) :
    lookupSetting rows k = none := by
  induction rows with
  | cons r rest ih =>
    simp only [List.any_cons, Bool.or_eq_false_iff] at h
    rw [lookupSetting_cons, if_neg (by simp [h.1]), ih h.2]
  | nil => rfl

theorem lookupSetting_update_self (rows : SettingsRows) (k : String) (v : SGValue)
    (hany : rows.any (fun r => r.1 == k) = true) :
    lookupSetting (rows.map (fun r => if r.1 == k then (k, v) else r)) k = some v := by
  induction rows with
  | nil => simp at hany
  | cons r rest ih =>
    simp only [List.any_cons, Bool.or_eq_true] at hany
    simp only [List.map_cons]
    rw [lookupSetting_cons]
    by_cases hr : (r.1 == k) = true
    · rw [if_pos hr, if_pos (by simp)]
    · rw [if_neg hr, if_neg hr]
      rcases hany with h | h
      · exact absurd h hr
      · exact ih h

theorem lookupSetting_map_ne (rows : SettingsRows) (k k' : String) (v : SGValue)
    (hkk : k ≠ k') :
    lookupSetting (rows.map (fun r => if r.1 == k then (k, v) else r)) k' =
      lookupSetting rows k' := by
  induction rows with
  | nil => rfl
  | cons r rest ih =>
    simp only [List.map_cons]
    rw [lookupSetting_cons, lookupSetting_cons]
    by_cases hr : (r.1 == k) = true
    · have hrk : r.1 = k := by simpa using hr
      have h1 : ((k, v).1 == k') = false := by simpa using hkk
      have h2 : (r.1 == k') = false := by rw [hrk]; simpa using hkk
      rw [if_pos hr, if_neg (by simp [h1]), if_neg (by simp [h2]), ih]
    · rw [if_neg hr, ih]

theorem lookupSetting_mergeSetting (rows : SettingsRows) (k k' : String) (v : SGValue) :
    lookupSetting (mergeSetting rows k v) k' =
      if k = k' then some v else lookupSetting rows k' := by
  unfold mergeSetting
  by_cases hany : rows.any (fun r => r.1 == k) = true
  · rw [if_pos hany]
    by_cases hkk : k = k'
    · subst hkk
      rw [if_pos rfl, lookupSetting_update_self rows k v hany]
    · rw [if_neg hkk, lookupSetting_map_ne rows k k' v hkk]
  · rw [if_neg hany, lookupSetting_append]
    have hnone : lookupSetting rows k = none :=
      lookupSetting_eq_none rows k (Bool.eq_false_iff.mpr hany)
    by_cases hkk : k = k'
    · subst hkk
      rw [hnone, if_pos rfl]
      rw [lookupSetting_cons, if_pos (by simp)]
    · rw [if_neg hkk]
      have h2 : lookupSetting [(k, v)] k' = none := by
        rw [lookupSetting_cons, if_neg (by simpa using hkk)]
        rfl
      rw [h2]
      cases lookupSetting rows k' <;> rfl

theorem mergeAll_cons (rows : SettingsRows) (kv : String × SGValue)
    (rest : SettingsRows) :
    mergeAll rows (kv :: rest) = mergeAll (mergeSetting rows kv.1 kv.2) rest := by
  rfl

theorem lookupSetting_mergeAll_notmem (defaults rows : SettingsRows) (k : String)
    (h : ∀ kv ∈ defaults, kv.1 ≠ k) :
    lookupSetting (mergeAll rows defaults) k = lookupSetting rows k := by
  induction defaults generalizing rows with
  | nil => rfl
  | cons kv rest ih =>
    rw [mergeAll_cons, ih _ (fun kv' h' => h kv' (List.mem_cons_of_mem _ h')),
      lookupSetting_mergeSetting, if_neg (h kv (List.mem_cons_self _ _))]

theorem lookupSetting_mergeAll_mem (defaults rows : SettingsRows) (k : String)
    (v : SGValue) (hnd : (defaults.map Prod.fst).Nodup) (hmem : (k, v) ∈ defaults) :
    lookupSetting (mergeAll rows defaults) k = some v := by
  induction defaults generalizing rows with
  | nil => cases hmem
  | cons kv rest ih =>
    rw [List.map_cons, List.nodup_cons] at hnd
    rcases List.mem_cons.mp hmem with heq | hmem'
    · subst heq
      rw [mergeAll_cons]
      have hnot : ∀ kv' ∈ rest, kv'.1 ≠ k := by
        intro kv' h' hk
        apply hnd.1
        have hm := List.mem_map_of_mem Prod.fst h'
        rw [hk] at hm
        exact hm
      rw [lookupSetting_mergeAll_notmem rest _ k hnot, lookupSetting_mergeSetting,
        if_pos rfl]
    · rw [mergeAll_cons]
      exact ih _ hnd.2 hmem'

theorem lookupSetting_filter_ne (rows : SettingsRows) (k d : String) (h : k ≠ d) :
    lookupSetting (rows.filter (fun kv => kv.1 != d)) k = lookupSetting rows k := by
  induction rows with
  | nil => rfl
  | cons r rest ih =>
    rw [List.filter_cons]
    by_cases hr : (r.1 != d) = true
    · rw [if_pos hr, lookupSetting_cons, lookupSetting_cons, ih]
    · have hrd : r.1 = d := by simpa using hr
      rw [if_neg hr, lookupSetting_cons, ih,
        if_neg (show ¬(r.1 == k) = true by
          simp only [hrd, beq_iff_eq]
          exact fun hc => h hc.symm)]

theorem lookupSetting_filter_self (rows : SettingsRows) (d : String) :
    lookupSetting (rows.filter (fun kv => kv.1 != d)) d = none := by
  induction rows with
  | nil => rfl
  | cons r rest ih =>
    rw [List.filter_cons]
    by_cases hr : (r.1 != d) = true
    · rw [if_pos hr, lookupSetting_cons, if_neg (by simpa using hr), ih]
    · rw [if_neg hr, ih]

/-! ### Bucket characterization lemmas for the reconciliation scan -/

theorem scanUploads_orphaned (dbUuids allowedExts : List String)
    (l : List DirEntry) (b : Buckets) :
    (l.foldl (scanUploadsStep dbUuids allowedExts) b).orphaned =
      b.orphaned ++ l.filterMap (fun e =>
        if (!e.isDir && uploadOrphanCond dbUuids allowedExts e) = true
        then some ⟨"uploads", e.name⟩ else none) := by
  induction l generalizing b with
  | nil => simp
  | cons e rest ih =>
    rw [List.foldl_cons, ih, List.filterMap_cons]
    unfold scanUploadsStep
    by_cases hd : e.isDir = true
    · rw [if_pos hd]
      simp [hd]
    · have hd' : e.isDir = false := by simpa using hd
      rw [if_neg hd]
      by_cases ho : uploadOrphanCond dbUuids allowedExts e = true
      · rw [if_pos ho]
        simp [hd', ho]
      · have ho' : uploadOrphanCond dbUuids allowedExts e = false := by
          simpa using ho
        rw [if_neg ho]
        by_cases hu : fileUnexpectedCond e = true
        · rw [if_pos hu]
          simp [hd', ho']
        · rw [if_neg hu]
          simp [hd', ho']

theorem scanUploads_unexpectedFiles (dbUuids allowedExts : List String)
    (l : List DirEntry) (b : Buckets) :
    (l.foldl (scanUploadsStep dbUuids allowedExts) b).unexpectedFiles =
      b.unexpectedFiles ++ l.filterMap (fun e =>
        if (!e.isDir && !(uploadOrphanCond dbUuids allowedExts e) &&
            fileUnexpectedCond e) = true
        then some ⟨"uploads", e.name⟩ else none) := by
  induction l generalizing b with
  | nil => simp
  | cons e rest ih =>
    rw [List.foldl_cons, ih, List.filterMap_cons]
    unfold scanUploadsStep
    by_cases hd : e.isDir = true
    · rw [if_pos hd]
      simp [hd]
    · have hd' : e.isDir = false := by simpa using hd
      rw [if_neg hd]
      by_cases ho : uploadOrphanCond dbUuids allowedExts e = true
      · rw [if_pos ho]
        simp [hd', ho]
      · have ho' : uploadOrphanCond dbUuids allowedExts e = false := by
          simpa using ho
        rw [if_neg ho]
        by_cases hu : fileUnexpectedCond e = true
        · rw [if_pos hu]
          simp [hd', ho', hu]
        · have hu' : fileUnexpectedCond e = false := by simpa using hu
          rw [if_neg hu]
          simp [hd', ho', hu']

theorem scanThumbsStep_orphaned (dbUuids : List String) (thumbExt : String)
    (b : Buckets) (e : DirEntry)
    (hded : b.orphaned.any
      (fun f => f.name == e.name && f.folder == "thumbnails") = false) :
    (scanThumbsStep dbUuids thumbExt b e).orphaned =
      b.orphaned ++
        (if (!e.isDir && thumbOrphanCond dbUuids thumbExt e) = true
         then [⟨"thumbnails", e.name⟩] else []) := by
  unfold scanThumbsStep
  by_cases hd : e.isDir = true
  · rw [if_pos hd]
    split <;> simp [hd]
  · have hd' : e.isDir = false := by simpa using hd
    rw [if_neg hd]
    by_cases ho : thumbOrphanCond dbUuids thumbExt e = true
    · rw [if_pos ho, if_neg (by simp [hded])]
      simp [hd', ho]
    · have ho' : thumbOrphanCond dbUuids thumbExt e = false := by simpa using ho
      rw [if_neg ho]
      by_cases hu : fileUnexpectedCond e = true
      · rw [if_pos hu]
        split <;> simp [hd', ho']
      · rw [if_neg hu]
        simp [hd', ho']

theorem scanThumbsStep_unexpectedFiles (dbUuids : List String)
    (thumbExt : String) (b : Buckets) (e : DirEntry)
    (hded : b.unexpectedFiles.any
      (fun f => f.name == e.name && f.folder == "thumbnails") = false) :
    (scanThumbsStep dbUuids thumbExt b e).unexpectedFiles =
      b.unexpectedFiles ++
        (if (!e.isDir && !(thumbOrphanCond dbUuids thumbExt e) &&
            fileUnexpectedCond e) = true
         then [⟨"thumbnails", e.name⟩] else []) := by
  unfold scanThumbsStep
  by_cases hd : e.isDir = true
  · rw [if_pos hd]
    split <;> simp [hd]
  · have hd' : e.isDir = false := by simpa using hd
    rw [if_neg hd]
    by_cases ho : thumbOrphanCond dbUuids thumbExt e = true
    · rw [if_pos ho]
      split <;> simp [hd', ho]
    · have ho' : thumbOrphanCond dbUuids thumbExt e = false := by simpa using ho
      rw [if_neg ho]
      by_cases hu : fileUnexpectedCond e = true
      · rw [if_pos hu, if_neg (by simp [hded])]
        simp [hd', ho', hu]
      · have hu' : fileUnexpectedCond e = false := by simpa using hu
        rw [if_neg hu]
        simp [hd', ho', hu']

theorem scanThumbs_orphaned (dbUuids : List String) (thumbExt : String)
    (l : List DirEntry) (b : Buckets)
    (hnd : (l.map DirEntry.name).Nodup)
    (hb : ∀ e ∈ l, ∀ i ∈ b.orphaned,
      ¬(i.name = e.name ∧ i.folder = "thumbnails")) :
    (l.foldl (scanThumbsStep dbUuids thumbExt) b).orphaned =
      b.orphaned ++ l.filterMap (fun e =>
        if (!e.isDir && thumbOrphanCond dbUuids thumbExt e) = true
        then some ⟨"thumbnails", e.name⟩ else none) := by
  induction l generalizing b with
  | nil => simp
  | cons e rest ih =>
    rw [List.map_cons, List.nodup_cons] at hnd
    have hded : b.orphaned.any
        (fun f => f.name == e.name && f.folder == "thumbnails") = false := by
      rw [List.any_eq_false]
      intro i hi
      have h := hb e (List.mem_cons_self _ _) i hi
      simp only [Bool.and_eq_true, beq_iff_eq]
      exact fun hc => h ⟨hc.1, hc.2⟩
    rw [List.foldl_cons, List.filterMap_cons,
      ih _ hnd.2 ?_]
    · rw [scanThumbsStep_orphaned dbUuids thumbExt b e hded]
      split
      · simp
      · simp
    · intro e' he' i hi
      rw [scanThumbsStep_orphaned dbUuids thumbExt b e hded] at hi
      rcases List.mem_append.mp hi with h | h
      · exact hb e' (List.mem_cons_of_mem _ he') i h
      · rintro ⟨hn, -⟩
        have hie : i = ⟨"thumbnails", e.name⟩ := by
          by_cases hc : (!e.isDir && thumbOrphanCond dbUuids thumbExt e) = true
          · rw [if_pos hc] at h
            simpa using h
          · rw [if_neg hc] at h
            cases h
        apply hnd.1
        have hee : e.name = e'.name := by rw [← hn, hie]
        rw [hee]
        exact List.mem_map_of_mem DirEntry.name he'

theorem scanThumbs_unexpectedFiles (dbUuids : List String) (thumbExt : String)
    (l : List DirEntry) (b : Buckets)
    (hnd : (l.map DirEntry.name).Nodup)
    (hb : ∀ e ∈ l, ∀ i ∈ b.unexpectedFiles,
      ¬(i.name = e.name ∧ i.folder = "thumbnails")) :
    (l.foldl (scanThumbsStep dbUuids thumbExt) b).unexpectedFiles =
      b.unexpectedFiles ++ l.filterMap (fun e =>
        if (!e.isDir && !(thumbOrphanCond dbUuids thumbExt e) &&
            fileUnexpectedCond e) = true
        then some ⟨"thumbnails", e.name⟩ else none) := by
  induction l generalizing b with
  | nil => simp
  | cons e rest ih =>
    rw [List.map_cons, List.nodup_cons] at hnd
    have hded : b.unexpectedFiles.any
        (fun f => f.name == e.name && f.folder == "thumbnails") = false := by
      rw [List.any_eq_false]
      intro i hi
      have h := hb e (List.mem_cons_self _ _) i hi
      simp only [Bool.and_eq_true, beq_iff_eq]
      exact fun hc => h ⟨hc.1, hc.2⟩
    rw [List.foldl_cons, List.filterMap_cons,
      ih _ hnd.2 ?_]
    · rw [scanThumbsStep_unexpectedFiles dbUuids thumbExt b e hded]
      split
      · simp
      · simp
    · intro e' he' i hi
      rw [scanThumbsStep_unexpectedFiles dbUuids thumbExt b e hded] at hi
      rcases List.mem_append.mp hi with h | h
      · exact hb e' (List.mem_cons_of_mem _ he') i h
      · rintro ⟨hn, -⟩
        have hie : i = ⟨"thumbnails", e.name⟩ := by
          by_cases hc : (!e.isDir && !(thumbOrphanCond dbUuids thumbExt e) &&
              fileUnexpectedCond e) = true
          · rw [if_pos hc] at h
            simpa using h
          · rw [if_neg hc] at h
            cases h
        apply hnd.1
        have hee : e.name = e'.name := by rw [← hn, hie]
        rw [hee]
        exact List.mem_map_of_mem DirEntry.name he'

theorem find_unexpected_orphaned_eq (uploadEntries thumbEntries : List DirEntry)
    (dbUuids allowedExts : List String) (thumbExt : String)
    (hnt : (thumbEntries.map DirEntry.name).Nodup) :
    (find_unexpected_items uploadEntries thumbEntries dbUuids allowedExts
        thumbExt).orphaned =
      uploadEntries.filterMap (fun e =>
        if (!e.isDir && uploadOrphanCond dbUuids allowedExts e) = true
        then some ⟨"uploads", e.name⟩ else none) ++
      thumbEntries.filterMap (fun e =>
        if (!e.isDir && thumbOrphanCond dbUuids thumbExt e) = true
        then some ⟨"thumbnails", e.name⟩ else none) := by
  unfold find_unexpected_items
  rw [scanThumbs_orphaned _ _ _ _ hnt, scanUploads_orphaned]
  · rw [List.nil_append]
  · intro e _ i hi
    rw [scanUploads_orphaned] at hi
    rw [List.nil_append] at hi
    rintro ⟨-, hf⟩
    obtain ⟨e', -, he'⟩ := List.mem_filterMap.mp hi
    by_cases hc : (!e'.isDir && uploadOrphanCond dbUuids allowedExts e') = true
    · rw [if_pos hc] at he'
      injection he' with h
      rw [← h] at hf
      simp at hf
    · rw [if_neg hc] at he'
      cases he'

theorem find_unexpected_unexpectedFiles_eq
    (uploadEntries thumbEntries : List DirEntry)
    (dbUuids allowedExts : List String) (thumbExt : String)
    (hnt : (thumbEntries.map DirEntry.name).Nodup) :
    (find_unexpected_items uploadEntries thumbEntries dbUuids allowedExts
        thumbExt).unexpectedFiles =
      uploadEntries.filterMap (fun e =>
        if (!e.isDir && !(uploadOrphanCond dbUuids allowedExts e) &&
            fileUnexpectedCond e) = true
        then some ⟨"uploads", e.name⟩ else none) ++
      thumbEntries.filterMap (fun e =>
        if (!e.isDir && !(thumbOrphanCond dbUuids thumbExt e) &&
            fileUnexpectedCond e) = true
        then some ⟨"thumbnails", e.name⟩ else none) := by
  unfold find_unexpected_items
  rw [scanThumbs_unexpectedFiles _ _ _ _ hnt, scanUploads_unexpectedFiles]
  · rw [List.nil_append]
  · intro e _ i hi
    rw [scanUploads_unexpectedFiles] at hi
    rw [List.nil_append] at hi
    rintro ⟨-, hf⟩
    obtain ⟨e', -, he'⟩ := List.mem_filterMap.mp hi
    by_cases hc : (!e'.isDir && !(uploadOrphanCond dbUuids allowedExts e') &&
        fileUnexpectedCond e') = true
    · rw [if_pos hc] at he'
      injection he' with h
      rw [← h] at hf
      simp at hf
    · rw [if_neg hc] at he'
      cases he'

theorem uploadOrphan_excludes_unexpected (dbUuids allowedExts : List String)
    (e : DirEntry) (h : uploadOrphanCond dbUuids allowedExts e = true) :
    fileUnexpectedCond e = false := by
  unfold uploadOrphanCond at h
  unfold fileUnexpectedCond
  simp only [Bool.and_eq_true] at h
  rw [h.1.1]
  rfl

theorem thumbOrphan_excludes_unexpected (dbUuids : List String)
    (thumbExt : String) (e : DirEntry)
    (h : thumbOrphanCond dbUuids thumbExt e = true) :
    fileUnexpectedCond e = false := by
  unfold thumbOrphanCond at h
  unfold fileUnexpectedCond
  simp only [Bool.and_eq_true] at h
  rw [h.1.1]
  rfl

theorem unexpected_excludes_uploadOrphan (dbUuids allowedExts : List String)
    (e : DirEntry) (h : fileUnexpectedCond e = true) :
    uploadOrphanCond dbUuids allowedExts e = false := by
  unfold fileUnexpectedCond at h
  unfold uploadOrphanCond
  have h1 : isUuidFormat (splitext e.name).1 = false := by
    simp only [Bool.and_eq_true] at h
    simpa using h.1
  rw [h1]
  rfl

theorem unexpected_excludes_thumbOrphan (dbUuids : List String)
    (thumbExt : String) (e : DirEntry) (h : fileUnexpectedCond e = true) :
    thumbOrphanCond dbUuids thumbExt e = false := by
  unfold fileUnexpectedCond at h
  unfold thumbOrphanCond
  have h1 : isUuidFormat (splitext e.name).1 = false := by
    simp only [Bool.and_eq_true] at h
    simpa using h.1
  rw [h1]
  rfl

theorem mem_orphaned_iff_uploads (uploadEntries thumbEntries : List DirEntry)
    (dbUuids allowedExts : List String) (thumbExt : String)
    (hnu : (uploadEntries.map DirEntry.name).Nodup)
    (hnt : (thumbEntries.map DirEntry.name).Nodup)
    (e : DirEntry) (he : e ∈ uploadEntries) (hf : e.isDir = false) :
    (⟨"uploads", e.name⟩ : ItemInfo) ∈ (find_unexpected_items uploadEntries
        thumbEntries dbUuids allowedExts thumbExt).orphaned ↔
      uploadOrphanCond dbUuids allowedExts e = true := by
  rw [find_unexpected_orphaned_eq _ _ _ _ _ hnt]
  constructor
  · intro hmem
    rcases List.mem_append.mp hmem with h | h
    · obtain ⟨e', he', heq⟩ := List.mem_filterMap.mp h
      by_cases hc : (!e'.isDir && uploadOrphanCond dbUuids allowedExts e') = true
      · rw [if_pos hc] at heq
        simp only [Option.some.injEq, ItemInfo.mk.injEq, true_and] at heq
        have hee : e' = e := List.inj_on_of_nodup_map hnu he' he heq
        subst hee
        simp only [Bool.and_eq_true] at hc
        exact hc.2
      · rw [if_neg hc] at heq
        cases heq
    · obtain ⟨e', -, heq⟩ := List.mem_filterMap.mp h
      by_cases hc : (!e'.isDir && thumbOrphanCond dbUuids thumbExt e') = true
      · rw [if_pos hc] at heq
        simp at heq
      · rw [if_neg hc] at heq
        cases heq
  · intro hcond
    apply List.mem_append.mpr
    left
    apply List.mem_filterMap.mpr
    refine ⟨e, he, ?_⟩
    rw [if_pos (by rw [hf, hcond]; rfl)]

theorem mem_unexpected_iff_uploads (uploadEntries thumbEntries : List DirEntry)
    (dbUuids allowedExts : List String) (thumbExt : String)
    (hnu : (uploadEntries.map DirEntry.name).Nodup)
    (hnt : (thumbEntries.map DirEntry.name).Nodup)
    (e : DirEntry) (he : e ∈ uploadEntries) (hf : e.isDir = false) :
    (⟨"uploads", e.name⟩ : ItemInfo) ∈ (find_unexpected_items uploadEntries
        thumbEntries dbUuids allowedExts thumbExt).unexpectedFiles ↔
      fileUnexpectedCond e = true := by
  rw [find_unexpected_unexpectedFiles_eq _ _ _ _ _ hnt]
  constructor
  · intro hmem
    rcases List.mem_append.mp hmem with h | h
    · obtain ⟨e', he', heq⟩ := List.mem_filterMap.mp h
      by_cases hc : (!e'.isDir && !(uploadOrphanCond dbUuids allowedExts e') &&
          fileUnexpectedCond e') = true
      · rw [if_pos hc] at heq
        simp only [Option.some.injEq, ItemInfo.mk.injEq, true_and] at heq
        have hee : e' = e := List.inj_on_of_nodup_map hnu he' he heq
        subst hee
        simp only [Bool.and_eq_true] at hc
        exact hc.2
      · rw [if_neg hc] at heq
        cases heq
    · obtain ⟨e', -, heq⟩ := List.mem_filterMap.mp h
      by_cases hc : (!e'.isDir && !(thumbOrphanCond dbUuids thumbExt e') &&
          fileUnexpectedCond e') = true
      · rw [if_pos hc] at heq
        simp at heq
      · rw [if_neg hc] at heq
        cases heq
  · intro hcond
    apply List.mem_append.mpr
    left
    apply List.mem_filterMap.mpr
    refine ⟨e, he, ?_⟩
    rw [if_pos (by
      rw [hf, hcond, unexpected_excludes_uploadOrphan dbUuids allowedExts e hcond]
      rfl)]

theorem mem_orphaned_iff_thumbs (uploadEntries thumbEntries : List DirEntry)
    (dbUuids allowedExts : List String) (thumbExt : String)
    (hnt : (thumbEntries.map DirEntry.name).Nodup)
    (e : DirEntry) (he : e ∈ thumbEntries) (hf : e.isDir = false) :
    (⟨"thumbnails", e.name⟩ : ItemInfo) ∈ (find_unexpected_items uploadEntries
        thumbEntries dbUuids allowedExts thumbExt).orphaned ↔
      thumbOrphanCond dbUuids thumbExt e = true := by
  rw [find_unexpected_orphaned_eq _ _ _ _ _ hnt]
  constructor
  · intro hmem
    rcases List.mem_append.mp hmem with h | h
    · obtain ⟨e', -, heq⟩ := List.mem_filterMap.mp h
      by_cases hc : (!e'.isDir && uploadOrphanCond dbUuids allowedExts e') = true
      · rw [if_pos hc] at heq
        simp at heq
      · rw [if_neg hc] at heq
        cases heq
    · obtain ⟨e', he', heq⟩ := List.mem_filterMap.mp h
      by_cases hc : (!e'.isDir && thumbOrphanCond dbUuids thumbExt e') = true
      · rw [if_pos hc] at heq
        simp only [Option.some.injEq, ItemInfo.mk.injEq, true_and] at heq
        have hee : e' = e := List.inj_on_of_nodup_map hnt he' he heq
        subst hee
        simp only [Bool.and_eq_true] at hc
        exact hc.2
      · rw [if_neg hc] at heq
        cases heq
  · intro hcond
    apply List.mem_append.mpr
    right
    apply List.mem_filterMap.mpr
    refine ⟨e, he, ?_⟩
    rw [if_pos (by rw [hf, hcond]; rfl)]

theorem mem_unexpected_iff_thumbs (uploadEntries thumbEntries : List DirEntry)
    (dbUuids allowedExts : List String) (thumbExt : String)
    (hnt : (thumbEntries.map DirEntry.name).Nodup)
    (e : DirEntry) (he : e ∈ thumbEntries) (hf : e.isDir = false) :
    (⟨"thumbnails", e.name⟩ : ItemInfo) ∈ (find_unexpected_items uploadEntries
        thumbEntries dbUuids allowedExts thumbExt).unexpectedFiles ↔
      fileUnexpectedCond e = true := by
  rw [find_unexpected_unexpectedFiles_eq _ _ _ _ _ hnt]
  constructor
  · intro hmem
    rcases List.mem_append.mp hmem with h | h
    · obtain ⟨e', -, heq⟩ := List.mem_filterMap.mp h
      by_cases hc : (!e'.isDir && !(uploadOrphanCond dbUuids allowedExts e') &&
          fileUnexpectedCond e') = true
      · rw [if_pos hc] at heq
        simp at heq
      · rw [if_neg hc] at heq
        cases heq
    · obtain ⟨e', he', heq⟩ := List.mem_filterMap.mp h
      by_cases hc : (!e'.isDir && !(thumbOrphanCond dbUuids thumbExt e') &&
          fileUnexpectedCond e') = true
      · rw [if_pos hc] at heq
        simp only [Option.some.injEq, ItemInfo.mk.injEq, true_and] at heq
        have hee : e' = e := List.inj_on_of_nodup_map hnt he' he heq
        subst hee
        simp only [Bool.and_eq_true] at hc
        exact hc.2
      · rw [if_neg hc] at heq
        cases heq
  · intro hcond
    apply List.mem_append.mpr
    right
    apply List.mem_filterMap.mpr
    refine ⟨e, he, ?_⟩
    rw [if_pos (by
      rw [hf, hcond, unexpected_excludes_thumbOrphan dbUuids thumbExt e hcond]
      rfl)]

end ShowGo

namespace ShowGo

/-- C1 (counterexample): `initialize_database` is *not* value-preserving — on a
store holding `slideshow_duration_seconds = 42`, bootstrap overwrites the
stored value with the compiled-in default `10` (SQLAlchemy `merge` updates
existing rows; the code's own comment says "updates if exists"). -/
theorem bootstrap_overwrites_counterexample :
    lookupSetting (initialize_database (DEFAULT_SETTINGS_DB .other 0)
      ⟨false, [("slideshow_duration_seconds", SGValue.num 42)]⟩).rows
      "slideshow_duration_seconds" = some (SGValue.num 10) ∧
    SGValue.num 10 ≠ SGValue.num 42 := by
  constructor
  · decide
  · decide

/-- C1 (amended): `initialize_database` ensures the schema exists, merges every
compiled-in default key — *overwriting* any existing stored value with the
compiled-in default —, leaves keys outside the default set untouched, removes
the explicitly deprecated key, and is idempotent (a second bootstrap changes
neither the schema flag nor any lookup). -/
theorem bootstrap_merge_overwrite (defaults : SettingsRows) (st : DBState)
    (hnd : (defaults.map Prod.fst).Nodup) :
    (initialize_database defaults st).schemaReady = true ∧
    (∀ kv ∈ defaults, kv.1 ≠ deprecatedKey →
      lookupSetting (initialize_database defaults st).rows kv.1 = some kv.2) ∧
    (∀ k, (∀ kv ∈ defaults, kv.1 ≠ k) → k ≠ deprecatedKey →
      lookupSetting (initialize_database defaults st).rows k =
        lookupSetting st.rows k) ∧
    lookupSetting (initialize_database defaults st).rows deprecatedKey = none ∧
    ((initialize_database defaults (initialize_database defaults st)).schemaReady =
        (initialize_database defaults st).schemaReady ∧
      ∀ k, lookupSetting
          (initialize_database defaults (initialize_database defaults st)).rows k =
        lookupSetting (initialize_database defaults st).rows k) := by
  refine ⟨rfl, ?_, ?_, ?_, rfl, ?_⟩
  · intro kv hmem hne
    show lookupSetting ((mergeAll st.rows defaults).filter
      (fun r => r.1 != deprecatedKey)) kv.1 = some kv.2
    rw [lookupSetting_filter_ne _ _ _ hne]
    have hmem' : (kv.1, kv.2) ∈ defaults := by rwa [Prod.mk.eta]
    exact lookupSetting_mergeAll_mem defaults st.rows kv.1 kv.2 hnd hmem'
  · intro k hk hkd
    show lookupSetting ((mergeAll st.rows defaults).filter
      (fun r => r.1 != deprecatedKey)) k = lookupSetting st.rows k
    rw [lookupSetting_filter_ne _ _ _ hkd,
      lookupSetting_mergeAll_notmem defaults st.rows k hk]
  · exact lookupSetting_filter_self _ _
  · intro k
    by_cases hkd : k = deprecatedKey
    · subst hkd
      show lookupSetting ((mergeAll (initialize_database defaults st).rows
          defaults).filter (fun r => r.1 != deprecatedKey)) deprecatedKey =
        lookupSetting ((mergeAll st.rows defaults).filter
          (fun r => r.1 != deprecatedKey)) deprecatedKey
      rw [lookupSetting_filter_self, lookupSetting_filter_self]
    · show lookupSetting ((mergeAll (initialize_database defaults st).rows
          defaults).filter (fun r => r.1 != deprecatedKey)) k = _
      rw [lookupSetting_filter_ne _ _ _ hkd]
      by_cases hk : ∃ v, (k, v) ∈ defaults
      · obtain ⟨v, hv⟩ := hk
        rw [lookupSetting_mergeAll_mem defaults _ k v hnd hv]
        show _ = lookupSetting ((mergeAll st.rows defaults).filter
          (fun r => r.1 != deprecatedKey)) k
        rw [lookupSetting_filter_ne _ _ _ hkd,
          lookupSetting_mergeAll_mem defaults _ k v hnd hv]
      · have hnot : ∀ kv ∈ defaults, kv.1 ≠ k := by
          intro kv hmem hkk
          apply hk
          refine ⟨kv.2, ?_⟩
          rw [← hkk, Prod.mk.eta]
          exact hmem
        rw [lookupSetting_mergeAll_notmem defaults _ k hnot]

/-- Witness for `bootstrap_merge_overwrite` at the concrete compiled-in
defaults on an empty store. -/
theorem bootstrap_merge_overwrite_witness :
    ((DEFAULT_SETTINGS_DB .other 0).map Prod.fst).Nodup ∧
    (initialize_database (DEFAULT_SETTINGS_DB .other 0) ⟨false, []⟩).schemaReady
      = true ∧
    lookupSetting (initialize_database (DEFAULT_SETTINGS_DB .other 0)
      ⟨false, []⟩).rows deprecatedKey = none := by
  have hnd : ((DEFAULT_SETTINGS_DB .other 0).map Prod.fst).Nodup := by decide
  have h := bootstrap_merge_overwrite (DEFAULT_SETTINGS_DB .other 0) ⟨false, []⟩ hnd
  exact ⟨hnd, h.1, h.2.2.2.1⟩

/-- C2: `get_setting` returns the stored value when the row exists; on
`ProgrammingError` it bootstraps exactly once and (when recovery succeeds)
retries exactly once, any failure of that retry falling through to the
fallback; on `OperationalError` or any other failure it performs no bootstrap
or retry and returns the caller-supplied fallback when given, else the
compiled-in default. -/
theorem get_setting_retry_policy (first : LookupOutcome) (bootstrapOk : Bool)
    (retry : RetryOutcome) (dflt compiled : Option SGValue) :
    (∀ v, first = .found v →
      get_setting first bootstrapOk retry dflt compiled = ⟨some v, 0, 1⟩) ∧
    (first = .progError →
      (get_setting first bootstrapOk retry dflt compiled).bootstraps = 1 ∧
      (bootstrapOk = true →
        (get_setting first bootstrapOk retry dflt compiled).lookups = 2 ∧
        (retry = .rerror →
          (get_setting first bootstrapOk retry dflt compiled).value =
            fallbackValue dflt compiled)) ∧
      (bootstrapOk = false →
        (get_setting first bootstrapOk retry dflt compiled).lookups = 1 ∧
        (get_setting first bootstrapOk retry dflt compiled).value =
          fallbackValue dflt compiled)) ∧
    ((first = .opError ∨ first = .otherError) →
      get_setting first bootstrapOk retry dflt compiled =
        ⟨fallbackValue dflt compiled, 0, 1⟩) := by
  refine ⟨?_, ?_, ?_⟩
  · rintro v rfl
    rfl
  · rintro rfl
    cases bootstrapOk
    · refine ⟨rfl, ?_, ?_⟩
      · intro h
        exact absurd h (by decide)
      · intro _
        exact ⟨rfl, rfl⟩
    · refine ⟨?_, ?_, ?_⟩
      · cases retry <;> rfl
      · intro _
        refine ⟨by cases retry <;> rfl, ?_⟩
        rintro rfl
        rfl
      · intro h
        exact absurd h (by decide)
  · rintro (rfl | rfl) <;> rfl

/-- Witness for `get_setting_retry_policy`: a `ProgrammingError` followed by a
successful bootstrap and a failing retry yields one bootstrap, two lookups and
the caller-supplied fallback; an `OperationalError` yields the fallback with
no bootstrap and no retry. -/
theorem get_setting_retry_policy_witness :
    (get_setting .progError true .rerror (some (SGValue.num 7)) none).bootstraps
      = 1 ∧
    (get_setting .progError true .rerror (some (SGValue.num 7)) none).lookups
      = 2 ∧
    (get_setting .progError true .rerror (some (SGValue.num 7)) none).value
      = some (SGValue.num 7) ∧
    get_setting .opError true .rerror none (some (SGValue.num 3))
      = ⟨some (SGValue.num 3), 0, 1⟩ := by
  obtain ⟨h1, h2, -⟩ :=
    (get_setting_retry_policy .progError true .rerror (some (SGValue.num 7))
      none).2.1 rfl
  obtain ⟨h3, h4⟩ := h2 rfl
  refine ⟨h1, h3, h4 rfl, ?_⟩
  exact (get_setting_retry_policy .opError true .rerror none
    (some (SGValue.num 3))).2.2 (Or.inl rfl)

/-- C3: when a video's codec validation fails, the upload is rejected and
afterwards there is no `MediaFile` row and no file on disk for the upload's
content-id: the partially written original is removed and no database insert
occurs. Freshness of the content-id (the code draws `uuid.uuid4().hex`) is
the hypothesis that the name was not already present. -/
theorem rejected_video_leaves_no_trace (st : CatalogState)
    (uuid_hex ext thumbExt : String) (webFriendly thumbOk : Bool)
    (hrej : webFriendly = false)
    (hfresh : (uuid_hex ++ "." ++ ext) ∉ st.uploadFiles)
    (hrow : ∀ r ∈ st.rows, r.uuid_filename ≠ uuid_hex) :
    (upload_video_step st uuid_hex ext thumbExt webFriendly thumbOk).2 = false ∧
    (upload_video_step st uuid_hex ext thumbExt webFriendly thumbOk).1.uploadFiles
      = st.uploadFiles ∧
    (upload_video_step st uuid_hex ext thumbExt webFriendly thumbOk).1.rows
      = st.rows ∧
    (uuid_hex ++ "." ++ ext) ∉
      (upload_video_step st uuid_hex ext thumbExt webFriendly thumbOk).1.uploadFiles ∧
    ∀ r ∈ (upload_video_step st uuid_hex ext thumbExt webFriendly thumbOk).1.rows,
      r.uuid_filename ≠ uuid_hex := by
  subst hrej
  have hfiles : (st.uploadFiles ++ [uuid_hex ++ "." ++ ext]).filter
      (fun f => f != (uuid_hex ++ "." ++ ext)) = st.uploadFiles := by
    rw [List.filter_append]
    have h1 : List.filter (fun f => f != (uuid_hex ++ "." ++ ext))
        [uuid_hex ++ "." ++ ext] = [] := by
      simp
    have h2 : st.uploadFiles.filter (fun f => f != (uuid_hex ++ "." ++ ext))
        = st.uploadFiles := by
      apply List.filter_eq_self.mpr
      intro f hf
      simp only [bne_iff_ne, ne_eq]
      intro hc
      exact hfresh (hc ▸ hf)
    rw [h1, h2, List.append_nil]
  refine ⟨rfl, hfiles, rfl, ?_, hrow⟩
  rw [show (upload_video_step st uuid_hex ext thumbExt false thumbOk).1.uploadFiles
      = (st.uploadFiles ++ [uuid_hex ++ "." ++ ext]).filter
        (fun f => f != (uuid_hex ++ "." ++ ext)) from rfl, hfiles]
  exact hfresh

/-- Witness for `rejected_video_leaves_no_trace`: rejecting a concrete video
upload on an empty catalog leaves zero files and zero rows. -/
theorem rejected_video_leaves_no_trace_witness :
    (upload_video_step ⟨[], [], []⟩ "0123456789abcdef0123456789abcdef" "mp4"
      ".png" false true).2 = false ∧
    (upload_video_step ⟨[], [], []⟩ "0123456789abcdef0123456789abcdef" "mp4"
      ".png" false true).1.uploadFiles = [] ∧
    (upload_video_step ⟨[], [], []⟩ "0123456789abcdef0123456789abcdef" "mp4"
      ".png" false true).1.rows = [] := by
  have h := rejected_video_leaves_no_trace ⟨[], [], []⟩
    "0123456789abcdef0123456789abcdef" "mp4" ".png" false true rfl
    (List.not_mem_nil _) (by intro r hr; cases hr)
  exact ⟨h.1, h.2.1, h.2.2.1⟩

/-- C4: the web-playability validator returns `false` whenever the file cannot
be probed or either stream's codec is undetectable or outside its allow-list;
in particular an allowed video codec with a disallowed audio codec is
rejected. (`is_web_friendly_video` is modelled from the spec: it is imported
from `showgo.utils` but absent from the sources.) -/
theorem validate_web_playable_rejects
    (probe : Option (Option String × Option String))
    (videoAllow audioAllow : List String) :
    (probe = none → is_web_friendly_video probe videoAllow audioAllow = false) ∧
    (∀ vcodec acodec, probe = some (vcodec, acodec) →
      (vcodec = none ∨ (∃ v, vcodec = some v ∧ videoAllow.contains v = false) ∨
        acodec = none ∨ (∃ a, acodec = some a ∧ audioAllow.contains a = false)) →
      is_web_friendly_video probe videoAllow audioAllow = false) := by
  constructor
  · rintro rfl
    rfl
  · rintro vcodec acodec rfl (rfl | ⟨v, rfl, hv⟩ | rfl | ⟨a, rfl, ha⟩)
    · rfl
    · show (videoAllow.contains v && _) = false
      rw [hv, Bool.false_and]
    · show (_ && false) = false
      cases vcodec with
      | none => rfl
      | some v => exact Bool.and_false _
    · show (_ && audioAllow.contains a) = false
      rw [ha]
      cases vcodec with
      | none => rfl
      | some v => exact Bool.and_false _

/-- Witness for `validate_web_playable_rejects`: an MP4 probed as video codec
`h264` (allowed) with audio codec `pcm_s16le` (not in the audio allow-list)
is rejected. -/
theorem validate_web_playable_rejects_witness :
    ALLOWED_VIDEO_CODECS.contains "h264" = true ∧
    ALLOWED_AUDIO_CODECS.contains "pcm_s16le" = false ∧
    is_web_friendly_video (some (some "h264", some "pcm_s16le"))
      ALLOWED_VIDEO_CODECS ALLOWED_AUDIO_CODECS = false := by
  refine ⟨by decide, by decide, ?_⟩
  exact (validate_web_playable_rejects (some (some "h264", some "pcm_s16le"))
    ALLOWED_VIDEO_CODECS ALLOWED_AUDIO_CODECS).2 (some "h264") (some "pcm_s16le")
    rfl (Or.inr (Or.inr (Or.inr ⟨"pcm_s16le", rfl, by decide⟩)))

/-- C9: for video sources, `generate_thumbnail` fails without invoking frame
extraction when the probed duration is unavailable or ≤ 0; otherwise the seek
offset passed to ffmpeg equals `max(0.1, 0.1 × duration)`. -/
theorem video_thumbnail_duration_gate (dest : String) (duration : Option ℚ)
    (ffmpegOk pil imageOk : Bool) :
    ((duration = none ∨ ∃ d, duration = some d ∧ d ≤ 0) →
      (generate_thumbnail dest "video" duration ffmpegOk pil imageOk).ffmpegInvoked = false ∧
      (generate_thumbnail dest "video" duration ffmpegOk pil imageOk).result = (false, none)) ∧
    (∀ d, duration = some d → 0 < d →
      (generate_thumbnail dest "video" duration ffmpegOk pil imageOk).seek
        = some (max (1/10 : ℚ) (d * (1/10)))) := by
  constructor
  · rintro (rfl | ⟨d, rfl, hd⟩)
    · exact ⟨rfl, rfl⟩
    · simp only [generate_thumbnail, if_pos rfl, if_pos hd]
      exact ⟨rfl, rfl⟩
  · rintro d rfl hd
    simp only [generate_thumbnail, if_pos rfl, if_neg (not_le.mpr hd)]
    cases ffmpegOk <;> rfl

/-- Witness for `video_thumbnail_duration_gate` at concrete inputs: a probe
failure yields no ffmpeg call and `(False, None)`, and duration 5 yields seek
offset `max(0.1, 0.5) = 0.5`. -/
theorem video_thumbnail_duration_gate_witness :
    ((generate_thumbnail "t.png" "video" none true true true).ffmpegInvoked = false ∧
      (generate_thumbnail "t.png" "video" none true true true).result = (false, none)) ∧
    (generate_thumbnail "t.png" "video" (some 5) true true true).seek = some (1/2 : ℚ) := by
  refine ⟨(video_thumbnail_duration_gate "t.png" none true true true).1 (Or.inl rfl), ?_⟩
  have h := (video_thumbnail_duration_gate "t.png" (some 5) true true true).2 5 rfl (by norm_num)
  rw [h]
  norm_num

/-- C10: every `generate_thumbnail` call creates the destination directory
tree before dispatching on the media type — even when the call fails — and
any media type other than `image` / `video` always returns `(False, None)`. -/
theorem thumbnail_always_makes_dest_dir (dest mt : String) (duration : Option ℚ)
    (ffmpegOk pil imageOk : Bool) :
    (generate_thumbnail dest mt duration ffmpegOk pil imageOk).mkdirDest = true ∧
    (mt ≠ "video" → mt ≠ "image" →
      (generate_thumbnail dest mt duration ffmpegOk pil imageOk).result = (false, none)) := by
  constructor
  · unfold generate_thumbnail
    split
    · split
      · rfl
      · split
        · rfl
        · split <;> rfl
    · split
      · split
        · rfl
        · split <;> rfl
      · rfl
  · intro hv hi
    unfold generate_thumbnail
    rw [if_neg hv, if_neg hi]

/-- Witness for `thumbnail_always_makes_dest_dir` at a concrete unknown media
type: the directory is created and the result is `(False, None)`. -/
theorem thumbnail_always_makes_dest_dir_witness :
    (generate_thumbnail "t.png" "audio" none true true true).mkdirDest = true ∧
    (generate_thumbnail "t.png" "audio" none true true true).result = (false, none) := by
  have h := thumbnail_always_makes_dest_dir "t.png" "audio" none true true true
  exact ⟨h.1, h.2 (by decide) (by decide)⟩

end ShowGo

namespace ShowGo

/-- C5 (counterexample): a file in the uploads folder named by a 32-hex token
with an *unrecognized* extension (`<32hex>.txt`) is neither a valid
content-id file nor an OS artifact, yet `find_unexpected_items` places it in
*no* bucket: the orphan branch requires a recognized media extension and the
unexpected branch requires a non-hex stem. -/
theorem find_unexpected_classification_gap :
    find_unexpected_items
      [⟨"0123456789abcdef0123456789abcdef.txt", false⟩] []
      [] ALLOWED_EXTENSIONS ".png" = ⟨[], [], []⟩ ∧
    isOSArtifact "0123456789abcdef0123456789abcdef.txt" = false ∧
    ALLOWED_EXTENSIONS.contains "txt" = false ∧
    isUuidFormat "0123456789abcdef0123456789abcdef" = true ∧
    splitext "0123456789abcdef0123456789abcdef.txt" =
      ("0123456789abcdef0123456789abcdef", ".txt") := by
  refine ⟨?_, ?_, ?_, ?_, ?_⟩ <;> decide

/-- C5 (amended): for every file found by `find_unexpected_items` in either
managed directory: it is orphaned iff its stem is a 32-hex token, its
extension is recognized (an allowed media extension in uploads; the configured
thumbnail extension in thumbnails) and the token is not a known content-id;
it is an unexpected file iff its stem is *not* a 32-hex token and it is not a
known OS artifact; it never lands in both buckets; and every file whose stem
is not a 32-hex token and which is not an OS artifact is classified.  Files
with a 32-hex stem but an unrecognized extension (or a known token) are left
unclassified. -/
theorem find_unexpected_classification
    (uploadEntries thumbEntries : List DirEntry)
    (dbUuids allowedExts : List String) (thumbExt : String)
    (hnu : (uploadEntries.map DirEntry.name).Nodup)
    (hnt : (thumbEntries.map DirEntry.name).Nodup) :
    (∀ e ∈ uploadEntries, e.isDir = false →
      ((⟨"uploads", e.name⟩ : ItemInfo) ∈ (find_unexpected_items uploadEntries
          thumbEntries dbUuids allowedExts thumbExt).orphaned ↔
        uploadOrphanCond dbUuids allowedExts e = true) ∧
      ((⟨"uploads", e.name⟩ : ItemInfo) ∈ (find_unexpected_items uploadEntries
          thumbEntries dbUuids allowedExts thumbExt).unexpectedFiles ↔
        fileUnexpectedCond e = true) ∧
      ¬((⟨"uploads", e.name⟩ : ItemInfo) ∈ (find_unexpected_items uploadEntries
          thumbEntries dbUuids allowedExts thumbExt).orphaned ∧
        (⟨"uploads", e.name⟩ : ItemInfo) ∈ (find_unexpected_items uploadEntries
          thumbEntries dbUuids allowedExts thumbExt).unexpectedFiles) ∧
      (isUuidFormat (splitext e.name).1 = false → isOSArtifact e.name = false →
        (⟨"uploads", e.name⟩ : ItemInfo) ∈ (find_unexpected_items uploadEntries
          thumbEntries dbUuids allowedExts thumbExt).unexpectedFiles)) ∧
    (∀ e ∈ thumbEntries, e.isDir = false →
      ((⟨"thumbnails", e.name⟩ : ItemInfo) ∈ (find_unexpected_items
          uploadEntries thumbEntries dbUuids allowedExts thumbExt).orphaned ↔
        thumbOrphanCond dbUuids thumbExt e = true) ∧
      ((⟨"thumbnails", e.name⟩ : ItemInfo) ∈ (find_unexpected_items
          uploadEntries thumbEntries dbUuids allowedExts
          thumbExt).unexpectedFiles ↔
        fileUnexpectedCond e = true) ∧
      ¬((⟨"thumbnails", e.name⟩ : ItemInfo) ∈ (find_unexpected_items
          uploadEntries thumbEntries dbUuids allowedExts thumbExt).orphaned ∧
        (⟨"thumbnails", e.name⟩ : ItemInfo) ∈ (find_unexpected_items
          uploadEntries thumbEntries dbUuids allowedExts
          thumbExt).unexpectedFiles) ∧
      (isUuidFormat (splitext e.name).1 = false → isOSArtifact e.name = false →
        (⟨"thumbnails", e.name⟩ : ItemInfo) ∈ (find_unexpected_items
          uploadEntries thumbEntries dbUuids allowedExts
          thumbExt).unexpectedFiles)) := by
  constructor
  · intro e he hf
    have hOrp := mem_orphaned_iff_uploads uploadEntries thumbEntries dbUuids
      allowedExts thumbExt hnu hnt e he hf
    have hUnx := mem_unexpected_iff_uploads uploadEntries thumbEntries dbUuids
      allowedExts thumbExt hnu hnt e he hf
    refine ⟨hOrp, hUnx, ?_, ?_⟩
    · rintro ⟨h1, h2⟩
      have hc1 := hOrp.mp h1
      have hc2 := hUnx.mp h2
      rw [uploadOrphan_excludes_unexpected dbUuids allowedExts e hc1] at hc2
      cases hc2
    · intro h1 h2
      apply hUnx.mpr
      unfold fileUnexpectedCond
      rw [h1, h2]
      rfl
  · intro e he hf
    have hOrp := mem_orphaned_iff_thumbs uploadEntries thumbEntries dbUuids
      allowedExts thumbExt hnt e he hf
    have hUnx := mem_unexpected_iff_thumbs uploadEntries thumbEntries dbUuids
      allowedExts thumbExt hnt e he hf
    refine ⟨hOrp, hUnx, ?_, ?_⟩
    · rintro ⟨h1, h2⟩
      have hc1 := hOrp.mp h1
      have hc2 := hUnx.mp h2
      rw [thumbOrphan_excludes_unexpected dbUuids thumbExt e hc1] at hc2
      cases hc2
    · intro h1 h2
      apply hUnx.mpr
      unfold fileUnexpectedCond
      rw [h1, h2]
      rfl

/-- Witness for `find_unexpected_classification`: with an unregistered
hex-named PNG and a text note in the uploads folder, the former is orphaned
and the latter unexpected, and the former is not unexpected. -/
theorem find_unexpected_classification_witness :
    (⟨"uploads", "0123456789abcdef0123456789abcdef.png"⟩ : ItemInfo) ∈
      (find_unexpected_items
        [⟨"0123456789abcdef0123456789abcdef.png", false⟩, ⟨"notes.txt", false⟩]
        [] [] ALLOWED_EXTENSIONS ".png").orphaned ∧
    (⟨"uploads", "notes.txt"⟩ : ItemInfo) ∈
      (find_unexpected_items
        [⟨"0123456789abcdef0123456789abcdef.png", false⟩, ⟨"notes.txt", false⟩]
        [] [] ALLOWED_EXTENSIONS ".png").unexpectedFiles ∧
    (⟨"uploads", "0123456789abcdef0123456789abcdef.png"⟩ : ItemInfo) ∉
      (find_unexpected_items
        [⟨"0123456789abcdef0123456789abcdef.png", false⟩, ⟨"notes.txt", false⟩]
        [] [] ALLOWED_EXTENSIONS ".png").unexpectedFiles := by
  have h := find_unexpected_classification
    [⟨"0123456789abcdef0123456789abcdef.png", false⟩, ⟨"notes.txt", false⟩]
    [] [] ALLOWED_EXTENSIONS ".png" (by decide) (by decide)
  have h1 := h.1 ⟨"0123456789abcdef0123456789abcdef.png", false⟩
    (by decide) rfl
  have h2 := h.1 ⟨"notes.txt", false⟩ (by decide) rfl
  refine ⟨h1.1.mpr (by decide), h2.2.1.mpr (by decide), ?_⟩
  intro hmem
  have := h1.2.1.mp hmem
  rw [show fileUnexpectedCond ⟨"0123456789abcdef0123456789abcdef.png", false⟩
    = false by decide] at this
  cases this

end ShowGo

namespace ShowGo

/-- C6 (code_bug): the containment guard of `cleanup_unexpected_items` is
`item_path.startswith(abspath(base))` with no trailing separator, so an item
resolving to a *sibling* of the managed root whose name extends the root's
(e.g. `uploads_backup` next to `uploads`) passes the guard and is deleted:
with uploads root `/srv/app/uploads` and item name `../uploads_backup/f`, the
resolved path `/srv/app/uploads_backup/f` lies outside the root, yet the file
is removed and no error is counted. -/
theorem cleanup_path_traversal_bug :
    (cleanup_unexpected_items "/srv/app/uploads" "/srv/app/thumbnails"
      [("/srv/app/uploads_backup/f", false)]
      [⟨"uploads", "../uploads_backup/f"⟩]).fs = [] ∧
    (cleanup_unexpected_items "/srv/app/uploads" "/srv/app/thumbnails"
      [("/srv/app/uploads_backup/f", false)]
      [⟨"uploads", "../uploads_backup/f"⟩]).deleted_files = 1 ∧
    (cleanup_unexpected_items "/srv/app/uploads" "/srv/app/thumbnails"
      [("/srv/app/uploads_backup/f", false)]
      [⟨"uploads", "../uploads_backup/f"⟩]).errors = 0 ∧
    abspath (joinPath "/srv/app/uploads" "../uploads_backup/f") =
      "/srv/app/uploads_backup/f" ∧
    ¬(abspath (joinPath "/srv/app/uploads" "../uploads_backup/f") =
        "/srv/app/uploads" ∨
      ("/srv/app/uploads/").data.isPrefixOf
        (abspath (joinPath "/srv/app/uploads" "../uploads_backup/f")).data
        = true) := by
  refine ⟨?_, ?_, ?_, ?_, ?_⟩ <;> decide

/-- C7 (code_bug): `remove_missing_media_db_entries` calls
`db.session.rollback()` on a per-record database error, which discards *all*
session-pending deletes, not only the failing one (despite the code's own
"Rollback this specific error" comment).  With ids `[1, 2, 3]` where record 1
is found and deleted, record 2 raises a database error and record 3 is found
and deleted, the function reports `(deleted, errors) = (2, 1)` but the
committed store still contains row 1: the successfully processed id 1 was
*not* deleted. -/
theorem prune_missing_rollback_bug :
    remove_missing_media_db_entries [1, 2, 3]
      [.foundRec 1, .dbError, .foundRec 3] = ([1, 2], 2, 1) ∧
    1 ∈ (remove_missing_media_db_entries [1, 2, 3]
      [.foundRec 1, .dbError, .foundRec 3]).1 := by
  refine ⟨?_, ?_⟩ <;> decide

/-- For contrast with `prune_missing_rollback_bug`: when the only failures
are invalid ids (`int()` errors) — which do not roll the session back — the
best-effort behaviour the claim describes does hold: both found records are
deleted and committed, and the counts are returned. -/
theorem prune_missing_invalid_ids_ok :
    remove_missing_media_db_entries [1, 2, 3]
      [.foundRec 1, .invalid, .foundRec 3] = ([2], 2, 1) := by
  decide

end ShowGo

namespace ShowGo

/-! ### Timestamp-tracker lemmas -/

theorem le_foldl_max (rows : List SettingRow) (init : ℚ) :
    init ≤ rows.foldl (fun m r => max m r.last_updated) init := by
  induction rows generalizing init with
  | nil => exact le_refl _
  | cons r rest ih =>
    rw [List.foldl_cons]
    exact le_trans (le_max_left _ _) (ih (max init r.last_updated))

theorem mem_le_foldl_max (rows : List SettingRow) (init : ℚ) (r : SettingRow)
    (hr : r ∈ rows) :
    r.last_updated ≤ rows.foldl (fun m r => max m r.last_updated) init := by
  induction rows generalizing init with
  | nil => cases hr
  | cons a rest ih =>
    rw [List.foldl_cons]
    rcases List.mem_cons.mp hr with rfl | h
    · exact le_trans (le_max_right _ _) (le_foldl_max rest _)
    · exact ih _ h

theorem foldl_max_le (rows : List SettingRow) (init c : ℚ) (h0 : init ≤ c)
    (h : ∀ r ∈ rows, r.last_updated ≤ c) :
    rows.foldl (fun m r => max m r.last_updated) init ≤ c := by
  induction rows generalizing init with
  | nil => exact h0
  | cons a rest ih =>
    rw [List.foldl_cons]
    exact ih _ (max_le h0 (h a (List.mem_cons_self _ _)))
      (fun r hr => h r (List.mem_cons_of_mem _ hr))

theorem mediaChangedTs_le (rows : List SettingRow) (c : ℚ) (h0 : 0 ≤ c)
    (h : ∀ r ∈ rows, ∀ q, r.key = "media_last_changed" →
      r.value = .num q → q ≤ c) :
    mediaChangedTs rows ≤ c := by
  unfold mediaChangedTs
  cases hf : rows.find? (fun r => r.key == "media_last_changed") with
  | none => exact h0
  | some r =>
    have hr : r ∈ rows := List.mem_of_find?_eq_some hf
    have hk : r.key = "media_last_changed" := by
      have := List.find?_some hf
      simpa using this
    show valueAsNum r.value ≤ c
    cases hv : r.value with
    | num q => exact h r hr q hk hv
    | str t => exact h0
    | boolean b => exact h0
    | other => exact h0

theorem mem_save_setting_row_self (rows : List SettingRow) (k : String)
    (v : SGValue) (t : ℚ) :
    (⟨k, v, t⟩ : SettingRow) ∈ save_setting_row rows k v t := by
  unfold save_setting_row
  by_cases hany : rows.any (fun r => r.key == k) = true
  · rw [if_pos hany]
    obtain ⟨r, hr, hrk⟩ := List.any_eq_true.mp hany
    have hfr : (fun r => if r.key == k then (⟨k, v, t⟩ : SettingRow) else r) r
        = ⟨k, v, t⟩ := by
      show (if r.key == k then (⟨k, v, t⟩ : SettingRow) else r) = ⟨k, v, t⟩
      rw [if_pos hrk]
    exact List.mem_map.mpr ⟨r, hr, hfr⟩
  · rw [if_neg hany]
    exact List.mem_append.mpr (Or.inr (List.mem_singleton.mpr rfl))

theorem mem_save_setting_row (rows : List SettingRow) (k : String)
    (v : SGValue) (t : ℚ) (r' : SettingRow)
    (h : r' ∈ save_setting_row rows k v t) :
    r' ∈ rows ∨ r' = ⟨k, v, t⟩ := by
  unfold save_setting_row at h
  by_cases hany : rows.any (fun r => r.key == k) = true
  · rw [if_pos hany] at h
    obtain ⟨a, ha, hfa⟩ := List.mem_map.mp h
    by_cases hak : (a.key == k) = true
    · rw [if_pos hak] at hfa
      exact Or.inr hfa.symm
    · rw [if_neg hak] at hfa
      exact Or.inl (hfa ▸ ha)
  · rw [if_neg hany] at h
    rcases List.mem_append.mp h with h | h
    · exact Or.inl h
    · exact Or.inr (List.mem_singleton.mp h)

theorem TSWF_step (s s' : TSStore) (hwf : TSWF s) (h : TSStep s s') :
    TSWF s' ∧
      max (maxLastUpdated s.rows) (mediaChangedTs s.rows) ≤
        max (maxLastUpdated s'.rows) (mediaChangedTs s'.rows) := by
  have hold : max (maxLastUpdated s.rows) (mediaChangedTs s.rows) ≤ s.clock :=
    max_le
      (foldl_max_le s.rows 0 s.clock hwf.1 (fun r hr => (hwf.2 r hr).1))
      (mediaChangedTs_le s.rows s.clock hwf.1 (fun r hr => (hwf.2 r hr).2))
  cases h with
  | set k v t ht hk =>
    have h0t : (0 : ℚ) ≤ t := le_trans hwf.1 ht
    refine ⟨⟨h0t, ?_⟩, ?_⟩
    · intro r' hr'
      rcases mem_save_setting_row s.rows k v t r' hr' with hmem | rfl
      · exact ⟨le_trans (hwf.2 r' hmem).1 ht,
          fun q hq hv => le_trans ((hwf.2 r' hmem).2 q hq hv) ht⟩
      · exact ⟨le_refl t, fun q hq _ => absurd hq hk⟩
    · have hmem := mem_save_setting_row_self s.rows k v t
      have htle : t ≤ maxLastUpdated (save_setting_row s.rows k v t) :=
        mem_le_foldl_max _ 0 _ hmem
      exact le_trans hold (le_trans ht (le_trans htle (le_max_left _ _)))
  | touch t ht =>
    have h0t : (0 : ℚ) ≤ t := le_trans hwf.1 ht
    refine ⟨⟨h0t, ?_⟩, ?_⟩
    · intro r' hr'
      rcases mem_save_setting_row s.rows "media_last_changed" (.num t) t r' hr'
        with hmem | rfl
      · exact ⟨le_trans (hwf.2 r' hmem).1 ht,
          fun q hq hv => le_trans ((hwf.2 r' hmem).2 q hq hv) ht⟩
      · refine ⟨le_refl t, fun q _ hv => ?_⟩
        injection hv with hv
        exact hv ▸ le_refl t
    · have hmem := mem_save_setting_row_self s.rows "media_last_changed"
        (.num t) t
      have htle : t ≤ maxLastUpdated
          (save_setting_row s.rows "media_last_changed" (.num t) t) :=
        mem_le_foldl_max _ 0 _ hmem
      exact le_trans hold (le_trans ht (le_trans htle (le_max_left _ _)))

theorem TSWF_steps (s s' : TSStore) (hwf : TSWF s)
    (h : Relation.ReflTransGen TSStep s s') :
    TSWF s' ∧
      max (maxLastUpdated s.rows) (mediaChangedTs s.rows) ≤
        max (maxLastUpdated s'.rows) (mediaChangedTs s'.rows) := by
  induction h with
  | refl => exact ⟨hwf, le_refl _⟩
  | tail hsteps hstep ih =>
    obtain ⟨hwf2, hle⟩ := ih
    obtain ⟨hwf3, hle2⟩ := TSWF_step _ _ hwf2 hstep
    exact ⟨hwf3, le_trans hle hle2⟩

end ShowGo

namespace ShowGo

/-- C8: starting from a well-formed store, across any sequence of settings
writes and catalog mutations (set / register / delete / prune — the catalog
mutations touch `media_last_changed` with the current time), successive
successful calls to `get_config_timestamp_from_db` return non-decreasing
values; and when the store is unreadable the call returns the failure
sentinel `none`, never some timestamp (in particular not `some 0`). -/
theorem last_changed_monotonic (s s' : TSStore) (hwf : TSWF s)
    (hsteps : Relation.ReflTransGen TSStep s s') (ts ts' : ℚ)
    (h1 : get_config_timestamp_from_db true s.rows = some ts)
    (h2 : get_config_timestamp_from_db true s'.rows = some ts') :
    ts ≤ ts' ∧ (∀ rows, get_config_timestamp_from_db false rows = none) ∧
      ∀ rows q, get_config_timestamp_from_db false rows ≠ some q := by
  refine ⟨?_, fun rows => rfl, fun rows q h => Option.noConfusion h⟩
  have h3 := (TSWF_steps s s' hwf hsteps).2
  unfold get_config_timestamp_from_db at h1 h2
  rw [if_pos rfl] at h1 h2
  injection h1 with h1
  injection h2 with h2
  rw [← h1, ← h2]
  exact h3

/-- Witness for `last_changed_monotonic`: from the empty store (timestamp 0),
one catalog mutation at time 1 moves the timestamp to 1 ≥ 0, and an
unreadable store yields `none`. -/
theorem last_changed_monotonic_witness :
    get_config_timestamp_from_db true ([] : List SettingRow) = some 0 ∧
    get_config_timestamp_from_db true
      (save_setting_row [] "media_last_changed" (.num 1) 1) = some 1 ∧
    (0 : ℚ) ≤ 1 ∧
    get_config_timestamp_from_db false ([] : List SettingRow) = none := by
  have e1 : get_config_timestamp_from_db true ([] : List SettingRow)
      = some 0 := by
    unfold get_config_timestamp_from_db maxLastUpdated mediaChangedTs
    norm_num
  have e2 : get_config_timestamp_from_db true
      (save_setting_row [] "media_last_changed" (.num 1) 1) = some 1 := by
    unfold get_config_timestamp_from_db save_setting_row maxLastUpdated
      mediaChangedTs valueAsNum
    norm_num [List.find?]
  have hwf : TSWF ⟨[], 0⟩ :=
    ⟨le_refl 0, fun r hr => absurd hr (List.not_mem_nil r)⟩
  have hstep : Relation.ReflTransGen TSStep ⟨[], 0⟩
      ⟨save_setting_row [] "media_last_changed" (.num 1) 1, 1⟩ :=
    Relation.ReflTransGen.single (TSStep.touch ⟨[], 0⟩ 1 (by norm_num))
  have h := last_changed_monotonic ⟨[], 0⟩
    ⟨save_setting_row [] "media_last_changed" (.num 1) 1, 1⟩ hwf hstep 0 1 e1 e2
  exact ⟨e1, e2, h.1, h.2.1 []⟩

end ShowGo
